import Mathlib

/-!
# Verification of the Sonarr Subtitle Translator core

A shallow embedding, in Lean 4, of the parts of the translation pipeline that
the specification's claims are about:

* the SQLite-backed `TranslationCache` (`src/modules/translation_cache.py`),
* the two-tier `HybridCache` (`src/modules/hybrid_cache.py`),
* the `LineClassifier` (`src/modules/line_classifier.py`),
* the LLM prompt assembly of `PromptBuilder._build_llm_prompt`
  (`src/modules/prompt_builder.py`),
* the numbered-batch response parser and the self-consistency comparison
  of `Translator` (`src/modules/translator.py`),
* the per-line validator of `SubtitleQualityValidator`
  (`src/modules/quality_validator.py`),
* the auto-glossary merge of `GlossaryManager`
  (`src/modules/glossary_manager.py`).

Modelling conventions:

* Python strings are Lean `String`s, manipulated via `List Char`.
  Python's Unicode-aware classifications (`str.isalpha`, `\w`, `str.lower`)
  are modelled on the ASCII range plus the specific non-ASCII letters that
  occur in the program's own word lists; all concrete inputs used in the
  theorems below stay inside that range, where the model agrees with Python.
* `md5(content)` is modelled by `content` itself: the cache code only ever
  compares hashes of well-formed `…|…|…` content strings for equality, and the
  model treats the (collision-free) content string as the key.
* Wall-clock timestamps are modelled by a logical clock (a `Nat` tick stored
  in the state); no claim depends on actual time values.
* Python float thresholds (`0.6 * n`, `0.3 * n`, `0.8 * n`, confidence
  arithmetic on tenths) are modelled with exact rational/integer arithmetic;
  for the integer operand ranges reachable here the IEEE-754 double results
  round to the exact values, so the comparisons agree.
* SQLite tables keyed by a primary-key hash are modelled as association
  lists with insert-or-replace semantics.
-/

/-! ## Python string primitives -/

/-- Whitespace characters recognised by Python's `str.strip()` and by `\s`
in the ASCII range: space, tab, newline, carriage return, vertical tab,
form feed. -/
def pySpace (c : Char) : Bool :=
  c = ' ' || c = '\t' || c = '\n' || c = '\x0d' || c = '\x0b' || c = '\x0c'

/-- `str.strip()` on a character list: drop leading and trailing whitespace. -/
def pyStripL (l : List Char) : List Char :=
  List.rdropWhile pySpace (l.dropWhile pySpace)

/-- `str.strip()` on a `String`. -/
def pyStrip (s : String) : String :=
  String.mk (pyStripL s.data)

/-- Python `str.lower()` restricted to ASCII letters (all non-ASCII
characters that occur in the repository's word lists are already
lowercase, so on the inputs used here this agrees with Python). -/
def pyLowerChar (c : Char) : Char :=
  if 'A' ≤ c ∧ c ≤ 'Z' then Char.ofNat (c.toNat + 32) else c

/-- `str.lower()` on a character list. -/
def pyLowerL (l : List Char) : List Char := l.map pyLowerChar

/-- `str.lower()` on a `String`. -/
def pyLower (s : String) : String := String.mk (pyLowerL s.data)

/-- Helper for `collapseWS`: the flag records whether the previous character
was whitespace (so no second space is emitted for the same run). -/
def collapseWSAux : Bool → List Char → List Char
  | _, [] => []
  | prevSpace, c :: rest =>
    if pySpace c then
      if prevSpace then collapseWSAux true rest
      else ' ' :: collapseWSAux true rest
    else c :: collapseWSAux false rest

/-- `re.sub(r'\s+', ' ', l)`: collapse every run of whitespace into a
single space. -/
def collapseWS (l : List Char) : List Char := collapseWSAux false l

theorem collapseWSAux_length_le (b : Bool) (l : List Char) :
    (collapseWSAux b l).length ≤ l.length := by
  induction l generalizing b with
  | nil => simp [collapseWSAux]
  | cons c rest ih =>
    by_cases h : pySpace c
    · cases b with
      | true =>
        simp only [collapseWSAux, h, if_true]
        exact Nat.le_trans (ih true) (Nat.le_succ _)
      | false =>
        simp only [collapseWSAux, h, if_true, if_false, List.length_cons]
        exact Nat.succ_le_succ (ih true)
    · simp only [collapseWSAux, h, if_false, List.length_cons]
      exact Nat.succ_le_succ (ih false)

theorem collapseWS_length_le (l : List Char) : (collapseWS l).length ≤ l.length :=
  collapseWSAux_length_le false l

theorem pyStripL_idem (l : List Char) : pyStripL (pyStripL l) = pyStripL l := by
  unfold pyStripL
  -- the leading drop of the already-stripped list does nothing: the stripped
  -- list is a prefix of `l.dropWhile pySpace`, whose head is not whitespace
  have hlead : (List.rdropWhile pySpace (l.dropWhile pySpace)).dropWhile pySpace
      = List.rdropWhile pySpace (l.dropWhile pySpace) := by
    rcases hp : List.rdropWhile pySpace (l.dropWhile pySpace) with _ | ⟨c, rest⟩
    · simp
    · obtain ⟨t, ht⟩ := List.rdropWhile_prefix pySpace (l.dropWhile pySpace)
      rw [hp] at ht
      have hc : pySpace c = false := by
        have h1 : (l.dropWhile pySpace).dropWhile pySpace = l.dropWhile pySpace :=
          List.dropWhile_idempotent pySpace l
      --  head of l.dropWhile pySpace equals c by the prefix equation
        rw [← ht, List.cons_append, List.dropWhile_cons] at h1
        by_cases h : pySpace c
        · exfalso
          rw [if_pos h] at h1
          have := congrArg List.length h1
          simp only [List.length_append, List.length_cons] at this
          have h2 : (((rest ++ t).dropWhile pySpace).length ≤ (rest ++ t).length) :=
            List.dropWhile_sublist pySpace |>.length_le
          simp only [List.length_append] at this h2
          omega
        · simpa using h
      simp [List.dropWhile_cons, hc]
  rw [hlead, List.rdropWhile_idempotent]

theorem pyStrip_idem (s : String) : pyStrip (pyStrip s) = pyStrip s := by
  simp [pyStrip, pyStripL_idem]

/-- `re.sub(r'\s+', ' ', text.strip()).lower()` — the normalisation applied
to every hashed text in both cache implementations. -/
def wsNormalize (s : String) : String :=
  pyLower (String.mk (collapseWS (pyStripL s.data)))

theorem wsNormalize_length_le (s : String) :
    (wsNormalize s).length ≤ (pyStrip s).length := by
  simp only [wsNormalize, pyLower, pyLowerL, pyStrip, String.length]
  simpa using collapseWS_length_le (pyStripL s.data)

/-! ## Cache keys

`TranslationCache._get_text_hash` / `_get_text_hash_v2` build a content
string `normalized|…|src|tgt[|v2]` and return its md5.  The model uses the
content string itself as the key (md5 modelled as injective). -/

/-- v1 cache key: `md5(normalized|src|tgt)`, modelled by the content string. -/
def hashV1 (text src tgt : String) : String :=
  wsNormalize text ++ "|" ++ src ++ "|" ++ tgt

/-- v2 contextual cache key:
`md5(normalized|prev_norm|next_norm|src|tgt|v2)`, modelled by the content
string.  An empty `prev_line`/`next_line` contributes an empty component
(the Python code guards with `if prev_line else ""`). -/
def hashV2 (text src tgt prevLine nextLine : String) : String :=
  wsNormalize text ++ "|" ++ (if prevLine = "" then "" else wsNormalize prevLine)
    ++ "|" ++ (if nextLine = "" then "" else wsNormalize nextLine)
    ++ "|" ++ src ++ "|" ++ tgt ++ "|v2"

/-! ## Association lists (SQLite tables / Python dicts keyed by hash) -/

/-- First-match lookup in an association list. -/
def alookup {α : Type} (k : String) : List (String × α) → Option α
  | [] => none
  | (k', v) :: t => if k' = k then some v else alookup k t

/-- Insert-or-replace: replaces the first binding of `k` in place, appends
at the end when absent (SQLite `INSERT OR REPLACE` / Python dict update). -/
def aInsert {α : Type} (k : String) (v : α) : List (String × α) → List (String × α)
  | [] => [(k, v)]
  | (k', v') :: t => if k' = k then (k, v) :: t else (k', v') :: aInsert k v t

/-- Update the first binding of `k` with `f`, if present. -/
def aModify {α : Type} (k : String) (f : α → α) : List (String × α) → List (String × α)
  | [] => []
  | (k', v') :: t => if k' = k then (k', f v') :: t else (k', v') :: aModify k f t

/-- Remove the first binding of `k`, if present (`del d[k]`). -/
def aErase {α : Type} (k : String) : List (String × α) → List (String × α)
  | [] => []
  | (k', v') :: t => if k' = k then t else (k', v') :: aErase k t

theorem alookup_aInsert_self {α : Type} (k : String) (v : α) (l : List (String × α)) :
    alookup k (aInsert k v l) = some v := by
  induction l with
  | nil => simp [aInsert, alookup]
  | cons p t ih =>
    by_cases h : p.1 = k
    · simp [aInsert, alookup, h]
    · simp [aInsert, alookup, h, ih]

theorem alookup_aInsert_ne {α : Type} (k k' : String) (v : α) (l : List (String × α))
    (h : k' ≠ k) : alookup k' (aInsert k v l) = alookup k' l := by
  have hk : k ≠ k' := fun he => h he.symm
  induction l with
  | nil =>
    simp only [aInsert, alookup]
    rw [if_neg hk]
  | cons p t ih =>
    obtain ⟨k1, v1⟩ := p
    by_cases hp : k1 = k
    · subst hp
      simp only [aInsert, if_pos rfl, alookup]
      rw [if_neg hk, if_neg hk]
    · simp only [aInsert, if_neg hp, alookup]
      by_cases hq : k1 = k'
      · rw [if_pos hq, if_pos hq]
      · rw [if_neg hq, if_neg hq]
        exact ih

/-! ## TranslationCache (`src/modules/translation_cache.py`)

The SQLite `translations` table is an association list from the key to the
stored row.  `created_at` timestamps are not modelled (no claim uses them).
-/

/-- One row of the `translations` table. -/
structure TCRow where
  original : String
  translated : String
  source : String
  target : String
  api : String
  hits : Nat
deriving Repr, DecidableEq

/-- The whole disk cache of `TranslationCache`. -/
structure TCState where
  db : List (String × TCRow)
deriving Repr, DecidableEq

def tcEmpty : TCState := ⟨[]⟩

/-- `TranslationCache._get_by_hash`: return the stored translation and bump
its hit counter; no change on a miss. -/
def tcGetByHash (h : String) (s : TCState) : Option String × TCState :=
  match alookup h s.db with
  | some row =>
    (some row.translated, ⟨aModify h (fun r => { r with hits := r.hits + 1 }) s.db⟩)
  | none => (none, s)

/-- `TranslationCache._save_by_hash`: `INSERT OR REPLACE` of a stripped row
with `hit_count` back at its default 1. -/
def tcSaveByHash (h orig trans src tgt api : String) (s : TCState) : TCState :=
  ⟨aInsert h ⟨pyStrip orig, pyStrip trans, src, tgt, api, 1⟩ s.db⟩

/-- The v1 fallback inside `TranslationCache.get`: probe the v1 hash and,
on a *truthy* result (`if result:` — a retrieved empty translation is falsy
and falls through to `return None`, though its hit counter was already
bumped), promote it into the v2 key and return it. -/
def tcGetV1Fallback (s1 : TCState) (text src tgt hv2 : String) :
    Option String × TCState :=
  match tcGetByHash (hashV1 text src tgt) s1 with
  | (some t, s2) =>
    if t ≠ "" then (some t, tcSaveByHash hv2 text t src tgt "cache_v1_promote" s2)
    else (none, s2)
  | (none, s2) => (none, s2)

/-- `TranslationCache.get`: refuse short texts, then dual-read v2 → v1 with
synchronous promotion of a v1 hit into the v2 key.  Both probes guard the
return with Python's `if result:` on the translation *string* — a stored
empty translation is treated as a miss. -/
def tcGet (s : TCState) (text src tgt prevLine nextLine : String) :
    Option String × TCState :=
  if text = "" ∨ (pyStrip text).length < 3 then (none, s)
  else
    let hv2 := hashV2 text src tgt prevLine nextLine
    match tcGetByHash hv2 s with
    | (some t, s1) =>
      if t ≠ "" then (some t, s1) else tcGetV1Fallback s1 text src tgt hv2
    | (none, s1) => tcGetV1Fallback s1 text src tgt hv2

/-- `TranslationCache.set`: refuse empty strings, stripped length < 3, and
(case-sensitively) strip-equal pairs; then write the v1 row and, when the
keys differ, the v2 row. -/
def tcSet (s : TCState) (orig trans src tgt api prevLine nextLine : String) : TCState :=
  if orig = "" ∨ trans = "" ∨ (pyStrip orig).length < 3 then s
  else if pyStrip orig = pyStrip trans then s
  else
    let hv1 := hashV1 orig src tgt
    let hv2 := hashV2 orig src tgt prevLine nextLine
    let s1 := tcSaveByHash hv1 orig trans src tgt api s
    if hv2 ≠ hv1 then tcSaveByHash hv2 orig trans src tgt api s1 else s1

/-- C1 — counterexample.  The claim quantifies over every original text that
merely *differs* from the translated text.  For `original = "abc "` and
`translated = "abc"` (normalized length 3, strings differ) `set` refuses the
insert — the strings are equal after stripping — so the following `get`
returns `none`, not the stored translation. -/
theorem tcSetGet_claim_counterexample :
    3 ≤ (wsNormalize "abc ").length ∧ "abc " ≠ "abc" ∧
    (tcGet (tcSet tcEmpty "abc " "abc" "en" "pt-BR" "api" "" "")
      "abc " "en" "pt-BR" "" "").1 = none := by
  refine ⟨by decide, by decide, by decide⟩

/-- C1 (amended) — for every state and every original/translated pair such
that the original has normalized length ≥ 3, the two strings differ *after
stripping*, and the translated text is nonempty *after stripping* (so the
stored row is truthy for `get`'s `if result:` check), `set` followed by
`get` with the same text, languages and context returns the stored
(stripped) translated text. -/
theorem tcSet_then_tcGet_returns_stored (s : TCState)
    (text trans src tgt api prevLine nextLine : String)
    (h3 : 3 ≤ (wsNormalize text).length)
    (hne : pyStrip text ≠ pyStrip trans)
    (htr : pyStrip trans ≠ "") :
    (tcGet (tcSet s text trans src tgt api prevLine nextLine)
      text src tgt prevLine nextLine).1 = some (pyStrip trans) := by
  have hlen : 3 ≤ (pyStrip text).length := le_trans h3 (wsNormalize_length_le text)
  have htext : text ≠ "" := by
    intro he
    rw [he] at hlen
    have h0 : (pyStrip "").length = 0 := rfl
    omega
  have htrne : trans ≠ "" := by
    intro he
    apply htr
    rw [he]
    rfl
  have g1 : ¬(text = "" ∨ trans = "" ∨ (pyStrip text).length < 3) := by
    push_neg
    exact ⟨htext, htrne, by omega⟩
  have g2 : ¬(text = "" ∨ (pyStrip text).length < 3) := by
    push_neg
    exact ⟨htext, by omega⟩
  rw [tcSet, if_neg g1, if_neg hne]
  rw [tcGet, if_neg g2]
  by_cases h : hashV2 text src tgt prevLine nextLine = hashV1 text src tgt
  · rw [if_neg (not_not_intro h)]
    simp only [tcGetByHash, tcSaveByHash, h, alookup_aInsert_self]
    rw [if_pos htr]
  · rw [if_pos h]
    simp only [tcGetByHash, tcSaveByHash, alookup_aInsert_self]
    rw [if_pos htr]

/-- C1 witness: the amended round-trip at a concrete input. -/
theorem tcSet_then_tcGet_returns_stored_witness :
    (tcGet (tcSet tcEmpty "abcd" "xyz" "en" "pt-BR" "api" "" "")
      "abcd" "en" "pt-BR" "" "").1 = some (pyStrip "xyz") :=
  tcSet_then_tcGet_returns_stored tcEmpty "abcd" "xyz" "en" "pt-BR" "api" "" ""
    (by decide) (by decide) (by decide)

/-! ## HybridCache (`src/modules/hybrid_cache.py`)

Memory tier: Python dict + LRU access-order list.  Disk tier: the SQLite
`translations` table.  `time.time()` / `CURRENT_TIMESTAMP` are modelled by
the state's logical clock (their values are never compared by the code). -/

/-- A `CacheEntry` (memory tier) / `translations` row (disk tier). -/
structure HEntry where
  original : String
  translated : String
  source : String
  target : String
  api : String
  createdAt : Nat
  hits : Nat
  lastAccessed : Nat
deriving Repr, DecidableEq

/-- The full state of a `HybridCache` instance.  `memCap` is
`self.memory_cache_size` (picked from RAM-size buckets at init). -/
structure HState where
  memCap : Nat
  mem : List (String × HEntry)
  accessOrder : List String
  memHits : Nat
  memMisses : Nat
  diskHits : Nat
  diskMisses : Nat
  disk : List (String × HEntry)
  clock : Nat
deriving Repr, DecidableEq

/-- A fresh `HybridCache` whose RAM-bucket capacity computed to `cap`. -/
def hInit (cap : Nat) : HState :=
  ⟨cap, [], [], 0, 0, 0, 0, [], 0⟩

/-- `HybridCache._update_access_order`: move the hash to the back; when the
list exceeds twice the capacity keep only the last `cap` hashes
(`self.access_order[-size:]`; Python's `[-0:]` keeps everything, hence the
`cap = 0` case). -/
def updateAccessOrder (h : String) (cap : Nat) (order : List String) : List String :=
  let o1 := order.erase h ++ [h]
  if o1.length > cap * 2 then
    if cap = 0 then o1 else o1.drop (o1.length - cap)
  else o1

/-- `HybridCache._evict_lru_entries`: pop least-recently-used hashes until
the memory tier is back under capacity.  When the access-order list runs out
first, the Python `while` loop can no longer make progress (it would spin
forever); the model returns at that point — no trace in this file reaches
that state. -/
def evictLRU (cap : Nat) (mem : List (String × HEntry)) :
    List String → List (String × HEntry) × List String
  | [] => (mem, [])
  | lru :: rest =>
    if mem.length ≤ cap then (mem, lru :: rest)
    else evictLRU cap (aErase lru mem) rest

/-- `HybridCache._promote_to_v2`: insert a copy of the entry under the v2
hash into the memory tier (NO eviction) and `INSERT OR IGNORE` it on disk. -/
def hPromoteToV2 (hv2 : String) (e : HEntry) (s : HState) : HState :=
  let v2e : HEntry :=
    ⟨e.original, e.translated, e.source, e.target, "v1_promoted", s.clock, 1, s.clock⟩
  { s with
    mem := aInsert hv2 v2e s.mem
    accessOrder := updateAccessOrder hv2 s.memCap s.accessOrder
    disk := if (alookup hv2 s.disk).isSome then s.disk else aInsert hv2 v2e s.disk }

/-- One iteration of the `for text_hash in hashes_to_try` loop of
`HybridCache.get`: memory first, then disk, each with its LRU/stat updates
and the v1→v2 promotion checks. -/
def hTryHash (h hv1 hv2 src tgt : String) (s : HState) : Option String × HState :=
  match alookup h s.mem with
  | some e =>
    let e' := { e with hits := e.hits + 1, lastAccessed := s.clock }
    let s1 := { s with
      mem := aInsert h e' s.mem
      accessOrder := updateAccessOrder h s.memCap s.accessOrder
      memHits := s.memHits + 1 }
    let s2 := if h = hv1 ∧ (alookup hv2 s1.mem).isNone then hPromoteToV2 hv2 e' s1 else s1
    (some e'.translated, s2)
  | none =>
    match alookup h s.disk with
    | some row =>
      let e : HEntry :=
        ⟨row.original, row.translated, src, tgt, "cached", s.clock, row.hits + 1, s.clock⟩
      let p := evictLRU s.memCap (aInsert h e s.mem) (updateAccessOrder h s.memCap s.accessOrder)
      let s1 := { s with
        mem := p.1
        accessOrder := p.2
        disk := aModify h (fun r => { r with hits := r.hits + 1, lastAccessed := s.clock }) s.disk
        diskHits := s.diskHits + 1 }
      let s2 := if h = hv1 ∧ hv2 ≠ hv1 then hPromoteToV2 hv2 e s1 else s1
      (some row.translated, s2)
    | none => (none, s)

/-- `HybridCache.get`: refuse short texts, then try the v2 hash and the v1
hash in order; count a miss on both tiers when neither is found. -/
def hGet (s : HState) (text src tgt prevLine nextLine : String) :
    Option String × HState :=
  if text = "" ∨ (pyStrip text).length < 3 then (none, s)
  else
    let hv2 := hashV2 text src tgt prevLine nextLine
    let hv1 := hashV1 text src tgt
    match hTryHash hv2 hv1 hv2 src tgt s with
    | (some t, s1) => (some t, s1)
    | (none, s1) =>
      match hTryHash hv1 hv1 hv2 src tgt s1 with
      | (some t, s2) => (some t, s2)
      | (none, s2) =>
        (none, { s2 with diskMisses := s2.diskMisses + 1, memMisses := s2.memMisses + 1 })

/-- `HybridCache.set`: refuse empty strings, stripped length < 3 and
(case-sensitively) strip-equal pairs; then insert the entry under the v1
hash and (when different) the v2 hash into memory, evict down to capacity,
and `INSERT OR REPLACE` the same rows on disk. -/
def hSet (s : HState) (orig trans src tgt api prevLine nextLine : String) : HState :=
  if orig = "" ∨ trans = "" ∨ (pyStrip orig).length < 3 then s
  else if pyStrip orig = pyStrip trans then s
  else
    let hv1 := hashV1 orig src tgt
    let hv2 := hashV2 orig src tgt prevLine nextLine
    let hashes := if hv2 ≠ hv1 then [hv1, hv2] else [hv1]
    let entry : HEntry := ⟨pyStrip orig, pyStrip trans, src, tgt, api, s.clock, 1, s.clock⟩
    let p0 := hashes.foldl
      (fun (p : List (String × HEntry) × List String) h =>
        (aInsert h entry p.1, updateAccessOrder h s.memCap p.2))
      (s.mem, s.accessOrder)
    let p := evictLRU s.memCap p0.1 p0.2
    { s with
      mem := p.1
      accessOrder := p.2
      disk := hashes.foldl (fun d h => aInsert h entry d) s.disk }

/-- C2 — the claim (and the spec) requires `set` to refuse pairs that are
equal case-insensitively after trimming, but the code only compares the
stripped strings case-*sensitively*: `set("Shit!", "SHIT!", …)` stores two
memory entries and a disk row even though the pair is case-insensitively
equal (the cache's own `cleanup_bad_translations` later deletes exactly such
rows, so the insert contradicts the code's own notion of a bad entry). -/
theorem hSet_stores_case_insensitive_equal_pair :
    pyLower (pyStrip "Shit!") = pyLower (pyStrip "SHIT!") ∧
    (hSet (hInit 1000) "Shit!" "SHIT!" "en" "pt-BR" "api" "" "").mem.length = 2 ∧
    (alookup (hashV1 "Shit!" "en" "pt-BR")
      (hSet (hInit 1000) "Shit!" "SHIT!" "en" "pt-BR" "api" "" "").disk).isSome = true := by
  refine ⟨by decide, by decide, by decide⟩

/-- C3 — after a cache hit that triggers a v1→v2 promotion, the memory tier
holds `capacity + 1` entries: `_promote_to_v2` inserts without evicting.
Trace (capacity 1): `set("abcd", "wxyz", prev="p")` fills memory to
capacity (1 entry); `get("abcd")` with empty context misses v2, hits v1 on
disk, loads it into memory (evicting down to 1) and then promotes the new
contextual v2 entry without eviction — 2 entries, above capacity. -/
theorem hGet_promotion_exceeds_memory_capacity :
    (hSet (hInit 1) "abcd" "wxyz" "en" "pt-BR" "api" "p" "").mem.length = 1 ∧
    (hGet (hSet (hInit 1) "abcd" "wxyz" "en" "pt-BR" "api" "p" "")
        "abcd" "en" "pt-BR" "" "").1 = some "wxyz" ∧
    (hGet (hSet (hInit 1) "abcd" "wxyz" "en" "pt-BR" "api" "p" "")
        "abcd" "en" "pt-BR" "" "").2.mem.length = 2 ∧
    (hGet (hSet (hInit 1) "abcd" "wxyz" "en" "pt-BR" "api" "p" "")
        "abcd" "en" "pt-BR" "" "").2.memCap = 1 := by
  refine ⟨by decide, by decide, by decide, by decide⟩

/-- C10 — for every text whose stripped length is below 3 (the empty string
included), `get` of both cache implementations returns `None` and leaves the
whole state — memory tier, disk tier, statistics — unchanged, for every
combination of languages and context lines. -/
theorem cacheGet_short_text_is_noop (sT : TCState) (sH : HState)
    (text src tgt prevLine nextLine : String)
    (h : (pyStrip text).length < 3) :
    tcGet sT text src tgt prevLine nextLine = (none, sT) ∧
    hGet sH text src tgt prevLine nextLine = (none, sH) := by
  constructor
  · rw [tcGet, if_pos (Or.inr h)]
  · rw [hGet, if_pos (Or.inr h)]

/-- C10 witness: a two-character text is rejected without touching either
tier. -/
theorem cacheGet_short_text_is_noop_witness :
    tcGet tcEmpty "ab" "en" "pt-BR" "p" "n" = (none, tcEmpty) ∧
    hGet (hInit 1000) "ab" "en" "pt-BR" "p" "n" = (none, hInit 1000) :=
  cacheGet_short_text_is_noop tcEmpty (hInit 1000) "ab" "en" "pt-BR" "p" "n" (by decide)

/-! ## LineClassifier (`src/modules/line_classifier.py`)

The compiled regexes are embedded as decidable predicates on the stripped
input (the code always applies them to `text.strip()`).  Python's
Unicode-aware `\w` / `str.isalpha` are modelled as ASCII alphanumerics plus
the accented Latin letters occurring in the program's own dictionaries. -/

/-- The class of a subtitle line (`LineType` enum). -/
inductive LineType where
  | DIALOGUE
  | SOUND_EFFECT
  | MUSIC_LYRICS
  | TECHNICAL_TAG
  | UNTRANSLATABLE
deriving Repr, DecidableEq

/-- Accented Latin letters treated as word characters / alphabetic
(the subset of Unicode relevant to the program's EN/PT-BR strings). -/
def latinExtLetter (c : Char) : Bool :=
  "àáâãäåçèéêëìíîïñòóôõöùúûüýÀÁÂÃÄÅÇÈÉÊËÌÍÎÏÑÒÓÔÕÖÙÚÛÜ".data.contains c

/-- A word character in the `\w` sense: alphanumeric or underscore. -/
def isWordChar (c : Char) : Bool :=
  ('a' ≤ c && c ≤ 'z') || ('A' ≤ c && c ≤ 'Z') || ('0' ≤ c && c ≤ '9')
    || c = '_' || latinExtLetter c

/-- `str.isalpha()` (ASCII + accented Latin range). -/
def pyIsAlpha (c : Char) : Bool :=
  ('a' ≤ c && c ≤ 'z') || ('A' ≤ c && c ≤ 'Z') || latinExtLetter c

/-- The opening brace character (U+007B). -/
def lbrace : Char := Char.ofNat 123

/-- The closing brace character (U+007D). -/
def rbrace : Char := Char.ofNat 125

/-- `_RE_ASS_FULL_TAG` = an opening brace, one or more non-closing-brace
characters, a closing brace — and nothing else (the input is already
stripped, so the outer `\s*` match nothing). -/
def assFullTag (l : List Char) : Bool :=
  match l.head?, l.getLast? with
  | some o, some c =>
    o = lbrace && c = rbrace && decide (3 ≤ l.length)
      && ((l.drop 1).dropLast.all (fun x => !(x = rbrace)))
  | _, _ => false

/-- `_RE_ONLY_PUNCTUATION` = `^[\s\W]+$`: nonempty and every character is
whitespace or a non-word character. -/
def onlyPunct (l : List Char) : Bool :=
  !l.isEmpty && l.all (fun c => pySpace c || !isWordChar c)

/-- A music glyph (♪ ♫ 🎵 🎶). -/
def isMusicChar (c : Char) : Bool :=
  c = '♪' || c = '♫' || c = '🎵' || c = '🎶'

/-- Step 3's guard: `_RE_MUSIC` (on a stripped string: at least two
characters, first and last are music glyphs) or
`startswith('♪') and endswith('♪')`. -/
def musicGuard (l : List Char) : Bool :=
  (decide (2 ≤ l.length) && l.head?.elim false isMusicChar
      && l.getLast?.elim false isMusicChar)
    || (l.head? = some '♪' && l.getLast? = some '♪')

/-- `_RE_SOUND_BRACKET` on a stripped string: an opening `[`/`(`, a nonempty
run free of `]`/`)`, then a closing `]`/`)` as the final character; returns
the captured group. -/
def bracketInner (l : List Char) : Option (List Char) :=
  match l.head?, l.getLast? with
  | some o, some c =>
    if (o = '[' || o = '(') && (c = ']' || c = ')') then
      let mid := (l.drop 1).dropLast
      if !mid.isEmpty && mid.all (fun x => !(x = ']' || x = ')')) then some mid else none
    else none
  | _, _ => none

/-- `_RE_SOUND_ASTERISK` on a stripped string: `*...*` with a nonempty
asterisk-free body; returns the captured group. -/
def asteriskInner (l : List Char) : Option (List Char) :=
  match l.head?, l.getLast? with
  | some o, some c =>
    if o = '*' && c = '*' then
      let mid := (l.drop 1).dropLast
      if !mid.isEmpty && mid.all (fun x => !(x = '*')) then some mid else none
    else none
  | _, _ => none

/-- The word alternatives of `_RE_SOUND_WORDS`, with each `s?` expanded into
both forms (`speaking [a-z]+` is handled separately). -/
def soundWordAlts : List String :=
  ["sigh", "sighs", "gasp", "gasps", "groan", "groans", "scream", "screams",
   "laugh", "laughs", "cough", "coughs", "sob", "sobs", "sniff", "sniffs",
   "chuckle", "chuckles", "giggle", "giggles", "whisper", "whispers",
   "shout", "shouts", "yell", "yells", "crie", "cries", "moan", "moans",
   "grunt", "grunts", "snore", "snores", "growl", "growls", "hum", "hums",
   "whistle", "whistles", "clap", "claps", "knock", "knocks",
   "footsteps", "gunshot", "gunshots", "explosion", "explosions",
   "thunder", "wind", "rain", "door", "phone",
   "music playing", "indistinct chatter", "crowd cheering", "alarm", "siren",
   "breathing", "panting", "stammering", "stuttering",
   "ringing", "beeping", "buzzing", "ticking", "clicking", "creaking",
   "applause", "laughter", "silence", "static",
   "talking", "singing", "crying", "sobbing", "wailing",
   "inhale", "inhales", "exhale", "exhales"]

/-- After the matched word: optional whitespace, at most one closing
`]`/`)`, optional whitespace, end of string. -/
def validTailAfterWord (l : List Char) : Bool :=
  let l1 := l.dropWhile pySpace
  let l2 := match l1 with
    | c :: rest => if c = ']' || c = ')' then rest else l1
    | [] => []
  (l2.dropWhile pySpace).isEmpty

/-- `_RE_SOUND_WORDS` on a stripped string: optional opening `[`/`(`,
optional whitespace, one of the sound-word alternatives (case-insensitive),
then a `validTailAfterWord` remainder. -/
def soundWordsMatch (l : List Char) : Bool :=
  let t1 := match l with
    | c :: rest => if c = '[' || c = '(' then rest else l
    | [] => []
  let t2 := pyLowerL (t1.dropWhile pySpace)
  soundWordAlts.any (fun alt =>
      alt.data.isPrefixOf t2 && validTailAfterWord (t2.drop alt.data.length))
    || ("speaking ".data.isPrefixOf t2 &&
        (let u := t2.drop 9
         let letters := u.takeWhile (fun c => 'a' ≤ c && c ≤ 'z')
         !letters.isEmpty && validTailAfterWord (u.drop letters.length)))

/-- `_ONOMATOPOEIA` — onomatopoeia kept verbatim. -/
def onomatopoeiaSet : List String :=
  ["bang", "boom", "pow", "crash", "splash", "thud", "whoosh", "buzz",
   "hiss", "click", "clack", "snap", "crack", "pop", "thump", "slam",
   "screech", "rumble", "clang", "swoosh", "whack", "zap", "beep",
   "boing", "ding", "dong", "wham", "zoom", "vroom"]

/-- `_JAPANESE_KEEP` — Japanese terms kept verbatim. -/
def japaneseKeepSet : List String :=
  ["bankai", "sharingan", "rasengan", "kamehameha", "jutsu", "chakra",
   "senpai", "sensei", "sama", "kun", "chan", "san", "dono",
   "nani", "baka", "sugoi", "kawaii", "yatta", "ganbatte",
   "itadakimasu", "gochisousama", "tadaima", "okaeri",
   "ohayo", "konnichiwa", "konbanwa", "sayonara", "matte"]

/-- `SOUND_EFFECT_TRANSLATIONS`, in source (insertion) order — the order
matters for the partial-match loop of `_translate_sound_effect`. -/
def sfxDict : List (String × String) :=
  [("sighs", "suspira"), ("sigh", "suspiro"),
   ("gasps", "ofega"), ("gasp", "ofego"),
   ("groans", "geme"), ("groan", "gemido"),
   ("screams", "grita"), ("scream", "grito"),
   ("laughs", "ri"), ("laugh", "risada"),
   ("laughing", "rindo"), ("laughter", "risadas"),
   ("coughs", "tosse"), ("cough", "tosse"),
   ("sobs", "soluça"), ("sob", "soluço"),
   ("sobbing", "soluçando"),
   ("sniffs", "funga"), ("sniff", "fungada"),
   ("chuckles", "dá risada"), ("chuckle", "risadinha"),
   ("giggles", "dá risadinha"), ("giggle", "risadinha"),
   ("whispers", "sussurra"), ("whisper", "sussurro"),
   ("whispering", "sussurrando"),
   ("shouts", "grita"), ("shout", "grito"),
   ("shouting", "gritando"),
   ("yells", "berra"), ("yell", "berro"),
   ("yelling", "berrando"),
   ("cries", "chora"), ("cry", "choro"),
   ("crying", "chorando"),
   ("moans", "geme"), ("moan", "gemido"),
   ("grunts", "rosna"), ("grunt", "rosnado"),
   ("growls", "rosna"), ("growl", "rosnado"),
   ("hums", "cantarola"), ("hum", "cantarolar"),
   ("humming", "cantarolando"),
   ("whistles", "assobia"), ("whistle", "assobio"),
   ("claps", "aplaude"), ("clap", "aplauso"),
   ("knocks", "bate"), ("knock", "batida"),
   ("knocking", "batendo na porta"),
   ("footsteps", "passos"),
   ("gunshot", "tiro"), ("gunshots", "tiros"),
   ("explosion", "explosão"), ("explosions", "explosões"),
   ("thunder", "trovão"),
   ("wind", "vento"),
   ("rain", "chuva"),
   ("door", "porta"),
   ("phone", "telefone"),
   ("music playing", "música tocando"),
   ("indistinct chatter", "conversa indistinta"),
   ("crowd cheering", "multidão comemorando"),
   ("alarm", "alarme"),
   ("siren", "sirene"),
   ("breathing", "respirando"),
   ("panting", "ofegando"),
   ("stammering", "gaguejando"),
   ("stuttering", "gaguejando"),
   ("ringing", "tocando"),
   ("beeping", "bipando"),
   ("buzzing", "zumbindo"),
   ("ticking", "tiquetaqueando"),
   ("clicking", "clicando"),
   ("creaking", "rangendo"),
   ("applause", "aplausos"),
   ("silence", "silêncio"),
   ("static", "estática"),
   ("singing", "cantando"),
   ("talking", "falando"),
   ("wailing", "lamentando"),
   ("inhales", "inspira"), ("inhale", "inspiração"),
   ("exhales", "expira"), ("exhale", "expiração"),
   ("snoring", "roncando"), ("snores", "ronca"),
   ("screaming", "gritando"),
   ("gasping", "ofegando"),
   ("groaning", "gemendo"),
   ("coughing", "tossindo"),
   ("sniffing", "fungando")]

/-- Python `pat in s` (substring test). -/
def infixOf (pat : List Char) : List Char → Bool
  | [] => pat.isEmpty
  | c :: t => pat.isPrefixOf (c :: t) || infixOf pat t

/-- Fuel-bounded `str.replace(pat, rep)` (replace every non-overlapping
occurrence, left to right); the fuel is the input length, which always
suffices for the nonempty patterns used here. -/
def replaceAllAux (pat rep : List Char) : Nat → List Char → List Char
  | 0, l => l
  | _ + 1, [] => []
  | fuel + 1, c :: t =>
    if pat.isPrefixOf (c :: t) && !pat.isEmpty then
      rep ++ replaceAllAux pat rep fuel ((c :: t).drop pat.length)
    else c :: replaceAllAux pat rep fuel t

/-- `str.replace(pat, rep)`. -/
def replaceAll (pat rep l : List Char) : List Char :=
  replaceAllAux pat rep l.length l

/-- `LineClassifier._translate_sound_effect`: direct dictionary lookup on the
lowercased/stripped effect, then first substring match (in dictionary order)
with full replacement, else the original text. -/
def translateSfx (effectText : String) : String :=
  let el := pyLowerL (pyStripL effectText.data)
  match sfxDict.find? (fun p => p.1.data = el) with
  | some p => p.2
  | none =>
    match sfxDict.find? (fun p => infixOf p.1.data el) with
    | some p => String.mk (replaceAll p.1.data p.2.data el)
    | none => effectText

/-- `stripped.lower().rstrip('!.').strip()` — the lookups of steps 7/8. -/
def onoKey (l : List Char) : String :=
  String.mk (pyStripL (List.rdropWhile (fun c => c = '!' || c = '.') (pyLowerL l)))

/-- `stripped.strip('[]() ')` — the inner text of step 6. -/
def stripBracketSet (l : List Char) : List Char :=
  List.rdropWhile (fun c => "[]() ".data.contains c)
    (l.dropWhile (fun c => "[]() ".data.contains c))

/-- Steps 5–10 of `LineClassifier.classify` (shared continuation of the
bracket branch and the no-bracket path). -/
def classifyTail (text : String) (s : List Char) : LineType × String :=
  match asteriskInner s with
  | some inner0 =>
    (LineType.SOUND_EFFECT,
      "*" ++ translateSfx (String.mk (pyLowerL (pyStripL inner0))) ++ "*")
  | none =>
    if soundWordsMatch s then
      (LineType.SOUND_EFFECT, translateSfx (String.mk (pyLowerL (stripBracketSet s))))
    else if onomatopoeiaSet.contains (onoKey s) then (LineType.UNTRANSLATABLE, text)
    else if japaneseKeepSet.contains (onoKey s) then (LineType.UNTRANSLATABLE, text)
    else if (s.countP (fun c => pyIsAlpha c)) < 2 then (LineType.UNTRANSLATABLE, text)
    else (LineType.DIALOGUE, String.mk s)

/-- Steps 1–4 of `LineClassifier.classify` on the stripped input `s`. -/
def classifyCore (text : String) (s : List Char) : LineType × String :=
  if assFullTag s then (LineType.TECHNICAL_TAG, text)
  else if onlyPunct s then (LineType.UNTRANSLATABLE, text)
  else if musicGuard s then (LineType.MUSIC_LYRICS, String.mk s)
  else
    match bracketInner s with
    | some inner0 =>
      let inner := String.mk (pyLowerL (pyStripL inner0))
      let tr := translateSfx inner
      if tr ≠ inner then
        (LineType.SOUND_EFFECT, String.mk ([s.headD ' '] ++ tr.data ++ [s.getLastD ' ']))
      else if soundWordsMatch s then
        (LineType.SOUND_EFFECT,
          String.mk ([s.headD ' '] ++ (translateSfx inner).data ++ [s.getLastD ' ']))
      else classifyTail text s
    | none => classifyTail text s

/-- `LineClassifier.classify`: empty/whitespace-only input is
UNTRANSLATABLE with the original text (`text or ""` is `text` itself,
`""` included); otherwise run the rule chain on the stripped text. -/
def classify (text : String) : LineType × String :=
  if pyStrip text = "" then (LineType.UNTRANSLATABLE, text)
  else classifyCore text (pyStripL text.data)

/-- C5 — counterexample.  `classify "(sighs)"` yields SOUND_EFFECT with the
locally translated text `"(suspira)"`, but classifying that processed text
yields DIALOGUE (the Portuguese word matches no sound-effect rule), so the
classifier is not idempotent on SOUND_EFFECT outputs. -/
theorem classify_not_idempotent_on_soundEffect :
    classify "(sighs)" = (LineType.SOUND_EFFECT, "(suspira)") ∧
    (classify "(suspira)").1 = LineType.DIALOGUE := by
  refine ⟨by decide, by decide⟩

/-- C5 (amended) — the classifier is idempotent on every input whose class
is not SOUND_EFFECT: classifying the processed text returns the same class
and the same processed text.  (SOUND_EFFECT outputs carry a locally
translated string which may reclassify, e.g. as DIALOGUE.) -/
theorem classify_idempotent_of_not_soundEffect (x : String)
    (h : (classify x).1 ≠ LineType.SOUND_EFFECT) :
    classify ((classify x).2) = classify x := by
  by_cases h0 : pyStrip x = ""
  · have hc : classify x = (LineType.UNTRANSLATABLE, x) := by
      rw [classify, if_pos h0]
    rw [hc]
    exact hc
  · set s := pyStripL x.data with hs
    have hx : classify x = classifyCore x s := by rw [classify, if_neg h0]
    have hsne : s ≠ [] := by
      intro he
      apply h0
      show String.mk (pyStripL x.data) = ""
      rw [← hs, he]
    have hstrip_s : pyStripL s = s := by rw [hs, pyStripL_idem]
    have hmkne : ¬ (pyStrip (String.mk s) = "") := by
      show ¬ (String.mk (pyStripL s) = "")
      rw [hstrip_s]
      intro he
      exact hsne (congrArg String.data he)
    have hclassify_mk : classify (String.mk s) = classifyCore (String.mk s) s := by
      rw [classify, if_neg hmkne]
      show classifyCore (String.mk s) (pyStripL s) = classifyCore (String.mk s) s
      rw [hstrip_s]
    rw [classifyCore] at hx
    by_cases g1 : assFullTag s
    · rw [if_pos g1] at hx
      rw [hx]
      exact hx
    · rw [if_neg g1] at hx
      by_cases g2 : onlyPunct s
      · rw [if_pos g2] at hx
        rw [hx]
        exact hx
      · rw [if_neg g2] at hx
        by_cases g3 : musicGuard s
        · rw [if_pos g3] at hx
          rw [hx]
          show classify (String.mk s) = (LineType.MUSIC_LYRICS, String.mk s)
          rw [hclassify_mk, classifyCore, if_neg g1, if_neg g2, if_pos g3]
        · rw [if_neg g3] at hx
          have tailCase : classify x = classifyTail x s →
              classifyCore (String.mk s) s = classifyTail (String.mk s) s →
              classify ((classify x).2) = classify x := by
            intro hx2 hcoreS
            rw [classifyTail] at hx2
            rcases hast : asteriskInner s with _ | inner0
            · simp only [hast] at hx2
              by_cases g4 : soundWordsMatch s
              · rw [if_pos g4] at hx2
                rw [hx2] at h
                simp at h
              · rw [if_neg g4] at hx2
                by_cases g5 : onomatopoeiaSet.contains (onoKey s)
                · rw [if_pos g5] at hx2
                  rw [hx2]
                  exact hx2
                · rw [if_neg g5] at hx2
                  by_cases g6 : japaneseKeepSet.contains (onoKey s)
                  · rw [if_pos g6] at hx2
                    rw [hx2]
                    exact hx2
                  · rw [if_neg g6] at hx2
                    by_cases g7 : (s.countP (fun c => pyIsAlpha c)) < 2
                    · rw [if_pos g7] at hx2
                      rw [hx2]
                      exact hx2
                    · rw [if_neg g7] at hx2
                      rw [hx2]
                      show classify (String.mk s) = (LineType.DIALOGUE, String.mk s)
                      rw [hclassify_mk, hcoreS, classifyTail]
                      simp only [hast]
                      rw [if_neg g4, if_neg g5, if_neg g6, if_neg g7]
            · simp only [hast] at hx2
              rw [hx2] at h
              simp at h
          rcases hbr : bracketInner s with _ | inner0
          · simp only [hbr] at hx
            refine tailCase hx ?_
            rw [classifyCore, if_neg g1, if_neg g2, if_neg g3]
            simp only [hbr]
          · simp only [hbr] at hx
            by_cases gtr : translateSfx (String.mk (pyLowerL (pyStripL inner0)))
                = String.mk (pyLowerL (pyStripL inner0))
            · rw [if_neg (not_not_intro gtr)] at hx
              by_cases g4 : soundWordsMatch s
              · rw [if_pos g4] at hx
                rw [hx] at h
                simp at h
              · rw [if_neg g4] at hx
                refine tailCase hx ?_
                rw [classifyCore, if_neg g1, if_neg g2, if_neg g3]
                simp only [hbr]
                rw [if_neg (not_not_intro gtr), if_neg g4]
            · rw [if_pos gtr] at hx
              rw [hx] at h
              simp at h

/-- C5 witness: idempotence at the DIALOGUE input `"Hello there."`. -/
theorem classify_idempotent_of_not_soundEffect_witness :
    classify ((classify "Hello there.").2) = classify "Hello there." :=
  classify_idempotent_of_not_soundEffect "Hello there." (by decide)

/-! ## PromptBuilder (`src/modules/prompt_builder.py`)

The non-paid LLM path of `_build_llm_prompt` (GPT/Gemini use the separate
lean path).  The section texts produced by `_build_glossary_section`,
`_build_metadata_section`, `_build_context_section`, `_build_fewshot_section`
are opaque inputs here: the claim is about the budgeted assembly.  A Python
`if section:` truthiness test is a nonemptiness test. -/

/-- `_SYSTEM_PROMPT_SINGLE`, verbatim. -/
def SYSTEM_PROMPT_SINGLE : String :=
  "You are a professional subtitle translator. MANDATORY RULES:\n\n" ++
  "1. Reply with ONLY the translated line\n" ++
  "2. NEVER add explanations, comments, 'translation:', etc.\n" ++
  "3. Match gender and number agreement correctly\n" ++
  "4. Use correct conditional forms\n" ++
  "5. Natural, fluent target language\n" ++
  "6. Keep formatting [XXX] if present\n" ++
  "7. Preserve ellipses (...) and emotional punctuation\n" ++
  "8. Use colloquial register when appropriate\n\n" ++
  "TRANSLATE ONLY:"

/-- `PromptBuilder._estimate_tokens`: `len(text) // 4`. -/
def estTokens (s : String) : Nat := s.length / 4

/-- The final user part (step 5 of `_build_llm_prompt`) — always appended
last and never budget-checked. -/
def finalUserPart (text srcName tgtName : String) : String :=
  "TRANSLATE the line below from " ++ srcName ++ " to " ++ tgtName ++ ".\n" ++
  "IMPORTANT: You MUST translate it. Do NOT return the original " ++ srcName ++
  " text.\n" ++
  "RESPOND WITH ONLY THE TRANSLATION in " ++ tgtName ++
  ". NO explanations. NO notes.\n\n" ++
  srcName ++ ": " ++ text ++ "\n" ++ tgtName ++ ":"

/-- The system/user part lists assembled by `_build_llm_prompt` (the code
then joins each list with a blank line). -/
structure PromptParts where
  systemParts : List String
  userParts : List String
deriving Repr, DecidableEq

/-- `_build_llm_prompt` (local-LLM path): greedy budgeted assembly in
priority order — glossary, metadata, context, few-shots (inserted at the
front of the user parts) — each included only when nonempty (few-shots:
available, enabled, EN→pt-BR) and the running estimate stays below the
budget; the user text is appended last unconditionally. -/
def buildLLMPromptParts (sysPrompt glossarySection metadataSection contextSection
    fewshotSection : String) (haveFewshotExamples enableFewshot : Bool)
    (sourceLang targetLang : String) (budget : Nat)
    (text srcName tgtName : String) : PromptParts :=
  let used0 := estTokens sysPrompt
  let p1 := if glossarySection ≠ "" ∧ used0 + estTokens glossarySection < budget
    then ([sysPrompt, glossarySection], used0 + estTokens glossarySection)
    else ([sysPrompt], used0)
  let p2 := if metadataSection ≠ "" ∧ p1.2 + estTokens metadataSection < budget
    then (p1.1 ++ [metadataSection], p1.2 + estTokens metadataSection)
    else p1
  let p3 := if contextSection ≠ "" ∧ p2.2 + estTokens contextSection < budget
    then ([contextSection], p2.2 + estTokens contextSection)
    else ([], p2.2)
  let usr := if haveFewshotExamples = true ∧ enableFewshot = true
      ∧ (sourceLang = "en" ∨ sourceLang = "auto") ∧ targetLang = "pt-BR"
      ∧ p3.2 + estTokens fewshotSection < budget
    then fewshotSection :: p3.1
    else p3.1
  ⟨p2.1, usr ++ [finalUserPart text srcName tgtName]⟩

set_option maxRecDepth 4000 in
/-- C4 — counterexample.  The claim says the glossary section is never
dropped, but the code budget-checks it like every other section: with the
real system prompt (~95 estimated tokens) and a budget of 50, a nonempty
glossary section is dropped from the assembled prompt. -/
theorem promptBuilder_drops_glossary_counterexample :
    "GLOSSARY (use these exact translations):\n- Akane → Akane" ≠ "" ∧
    50 < estTokens SYSTEM_PROMPT_SINGLE +
      estTokens "GLOSSARY (use these exact translations):\n- Akane → Akane" ∧
    "GLOSSARY (use these exact translations):\n- Akane → Akane" ∉
      (buildLLMPromptParts SYSTEM_PROMPT_SINGLE
        "GLOSSARY (use these exact translations):\n- Akane → Akane"
        "" "" "" false false "en" "pt-BR" 50
        "Hello." "English" "Portuguese (Brazilian)").systemParts := by
  refine ⟨by decide, by decide, by decide⟩

/-- C4 (amended) — sections are considered in priority order (glossary,
metadata, context, few-shots) and each — the glossary included — is kept
only if the running token estimate stays strictly below the budget; a
section that does not fit is skipped individually (no strict reverse-
priority truncation); the user text is never dropped and is always the last
part of the prompt.  In particular the glossary is present iff it is
nonempty and fits right after the system prompt. -/
theorem buildLLMPrompt_glossary_iff_fits_and_text_last
    (sysPrompt g m c f : String) (hf ef : Bool) (sl tl : String) (budget : Nat)
    (text srcName tgtName : String)
    (hg1 : g ≠ sysPrompt) (hg2 : g ≠ m) :
    (buildLLMPromptParts sysPrompt g m c f hf ef sl tl budget
        text srcName tgtName).userParts.getLast?
      = some (finalUserPart text srcName tgtName) ∧
    (g ∈ (buildLLMPromptParts sysPrompt g m c f hf ef sl tl budget
        text srcName tgtName).systemParts
      ↔ g ≠ "" ∧ estTokens sysPrompt + estTokens g < budget) := by
  constructor
  · rw [buildLLMPromptParts]
    simp only [List.getLast?_concat]
  · rw [buildLLMPromptParts]
    by_cases hG : g ≠ "" ∧ estTokens sysPrompt + estTokens g < budget
    · rw [if_pos hG]
      by_cases hM : m ≠ "" ∧ estTokens sysPrompt + estTokens g + estTokens m < budget
      · rw [if_pos hM]
        simp [hG]
      · rw [if_neg hM]
        simp [hG]
    · rw [if_neg hG]
      by_cases hM : m ≠ "" ∧ estTokens sysPrompt + estTokens m < budget
      · rw [if_pos hM]
        simp [hG, hg1, hg2]
      · rw [if_neg hM]
        simp [hG, hg1]

/-- C4 witness: with the real system prompt, a fitting glossary is kept and
the user text is last. -/
theorem buildLLMPrompt_glossary_iff_fits_and_text_last_witness :
    (buildLLMPromptParts SYSTEM_PROMPT_SINGLE "GLOSSARY:\n- Akane → Akane"
        "" "" "" false false "en" "pt-BR" 1000
        "Hello." "English" "Portuguese (Brazilian)").userParts.getLast?
      = some (finalUserPart "Hello." "English" "Portuguese (Brazilian)") ∧
    ("GLOSSARY:\n- Akane → Akane" ∈
      (buildLLMPromptParts SYSTEM_PROMPT_SINGLE "GLOSSARY:\n- Akane → Akane"
        "" "" "" false false "en" "pt-BR" 1000
        "Hello." "English" "Portuguese (Brazilian)").systemParts
      ↔ "GLOSSARY:\n- Akane → Akane" ≠ "" ∧
        estTokens SYSTEM_PROMPT_SINGLE + estTokens "GLOSSARY:\n- Akane → Akane" < 1000) :=
  buildLLMPrompt_glossary_iff_fits_and_text_last SYSTEM_PROMPT_SINGLE
    "GLOSSARY:\n- Akane → Akane" "" "" "" false false "en" "pt-BR" 1000
    "Hello." "English" "Portuguese (Brazilian)" (by decide) (by decide)

/-! ## Self-consistency (`src/modules/translator.py`)

`translate_text` triggers `_self_consistency_check` when the per-line
confidence is below 0.6 and the backend is Ollama; the check re-translates
with a raised, capped temperature and compares the two candidates.  The
network call producing `second` is an input here; the comparison logic is
the code.  Temperatures and confidences are exact rationals (the IEEE
doubles round to the same comparison results for these operands). -/

/-- The trigger `confidence < 0.6 and api == 'Ollama'`
(`translator.py:1384`). -/
def selfConsistencyTriggered (confidence : ℚ) (api : String) : Bool :=
  confidence < 6/10 && api = "Ollama"

/-- `profile2.temperature = min(0.7, self.profile.temperature + 0.3)`. -/
def selfConsistencyTemp (t : ℚ) : ℚ := min (7/10) (t + 3/10)

/-- The comparison part of `_self_consistency_check`: keep the first
translation when the second is empty, echoes the original, or agrees
case-insensitively; otherwise return the stripped second iff it is strictly
shorter than 80% of the first. -/
def selfConsistencyPick (original firstTranslation second : String) : String :=
  if second = "" ∨ pyStrip second = pyStrip original then firstTranslation
  else if pyLower (pyStrip firstTranslation) = pyLower (pyStrip second) then
    firstTranslation
  else if 5 * (pyStrip second).length < 4 * (pyStrip firstTranslation).length then
    pyStrip second
  else firstTranslation

/-- C7 — counterexample.  The claim prefers the second translation whenever
it is at least 20% shorter (`len2 ≤ 0.8·len1`); at the boundary
(`len2 = 0.8·len1` exactly: 4 vs 5) the code's strict `<` keeps the first. -/
theorem selfConsistency_boundary_counterexample :
    5 * (pyStrip "abcd").length = 4 * (pyStrip "abcde").length ∧
    "abcd" ≠ "" ∧ pyStrip "abcd" ≠ pyStrip "zz" ∧
    pyLower (pyStrip "abcde") ≠ pyLower (pyStrip "abcd") ∧
    selfConsistencyPick "zz" "abcde" "abcd" = "abcde" := by
  refine ⟨by decide, by decide, by decide, by decide, by decide⟩

/-- C7 (amended) — self-consistency triggers iff confidence < 0.6 on the
Ollama backend; it re-translates with temperature + 0.3 capped at 0.7; and
for candidates that are nonempty, do not echo the original and differ
case-insensitively from the first, the stripped second is preferred iff it
is *strictly* more than 20% shorter (`len2 < 0.8·len1`), else the first is
kept. -/
theorem selfConsistency_behavior (t conf : ℚ) (api original first second : String)
    (h1 : second ≠ "") (h2 : pyStrip second ≠ pyStrip original)
    (h3 : pyLower (pyStrip first) ≠ pyLower (pyStrip second)) :
    (selfConsistencyTriggered conf api = true ↔ (conf < 6/10 ∧ api = "Ollama")) ∧
    selfConsistencyTemp t ≤ 7/10 ∧
    (t ≤ 2/5 → selfConsistencyTemp t = t + 3/10) ∧
    (5 * (pyStrip second).length < 4 * (pyStrip first).length →
      selfConsistencyPick original first second = pyStrip second) ∧
    (¬ 5 * (pyStrip second).length < 4 * (pyStrip first).length →
      selfConsistencyPick original first second = first) := by
  refine ⟨?_, ?_, ?_, ?_, ?_⟩
  · simp [selfConsistencyTriggered]
  · exact min_le_left _ _
  · intro ht
    rw [selfConsistencyTemp, min_eq_right]
    linarith
  · intro hlen
    rw [selfConsistencyPick, if_neg (by push_neg; exact ⟨h1, h2⟩), if_neg h3,
      if_pos hlen]
  · intro hlen
    rw [selfConsistencyPick, if_neg (by push_neg; exact ⟨h1, h2⟩), if_neg h3,
      if_neg hlen]

/-- C7 witness: at temperature 0.2 and confidence 0.5 on Ollama, with a
second candidate strictly more than 20% shorter. -/
theorem selfConsistency_behavior_witness :
    ((selfConsistencyTriggered (1/2) "Ollama" = true ↔
        ((1/2 : ℚ) < 6/10 ∧ "Ollama" = "Ollama")) ∧
      selfConsistencyTemp (1/5) ≤ 7/10 ∧
      ((1/5 : ℚ) ≤ 2/5 → selfConsistencyTemp (1/5) = 1/5 + 3/10) ∧
      (5 * (pyStrip "abcd").length < 4 * (pyStrip "abcdefghij").length →
        selfConsistencyPick "zz" "abcdefghij" "abcd" = pyStrip "abcd") ∧
      (¬ 5 * (pyStrip "abcd").length < 4 * (pyStrip "abcdefghij").length →
        selfConsistencyPick "zz" "abcdefghij" "abcd" = "abcdefghij")) :=
  selfConsistency_behavior (1/5) (1/2) "Ollama" "zz" "abcdefghij" "abcd"
    (by decide) (by decide) (by decide)

/-! ## Per-line validator (`src/modules/quality_validator.py`)

`validate_line_translation` returns `(is_valid, message, confidence)`.  The
message is a rendering of the recorded issues ("; "-joined, `"OK"` when
empty; the two early refusals carry fixed texts); the model returns the
issue list itself, as an inductive tag per issue. -/

/-- The issues `validate_line_translation` can record, in the order the code
checks them. -/
inductive LineIssue where
  | semanticInversion
  | pronounFemToMasc
  | pronounMascToFem
  | tooShort
  | tooLong
  | artifact (prefixText : String)
  | cjkChars
deriving Repr, DecidableEq

/-- `self._english_negations`. -/
def englishNegations : List String :=
  ["not", "n't", "never", "no", "neither", "nor", "nobody",
   "nothing", "nowhere", "hardly", "barely", "scarcely",
   "don't", "doesn't", "didn't", "won't", "wouldn't",
   "can't", "cannot", "couldn't", "shouldn't", "isn't",
   "aren't", "wasn't", "weren't", "haven't", "hasn't",
   "hadn't", "mustn't", "hate", "refuse", "deny"]

/-- `self._portuguese_negations`. -/
def portugueseNegations : List String :=
  ["não", "nunca", "nenhum", "nenhuma", "nem", "ninguém",
   "nada", "jamais", "tampouco", "sequer", "odeio",
   "recuso", "nego", "impossível", "incapaz"]

/-- The LLM-artifact prefixes of check 4. -/
def artifactPrefixes : List String :=
  ["translation:", "tradução:", "note:", "nota:", "here is",
   "aqui está", "the translation", "a tradução", "in portuguese",
   "em português", "translated:", "output:", "result:"]

/-- CJK ranges of check 5 (`[一-鿿぀-ゟ゠-ヿ]`). -/
def isCJK (c : Char) : Bool :=
  (0x4e00 ≤ c.toNat && c.toNat ≤ 0x9fff)
    || (0x3040 ≤ c.toNat && c.toNat ≤ 0x309f)
    || (0x30a0 ≤ c.toNat && c.toNat ≤ 0x30ff)

/-- Maximal runs of characters satisfying `p` (the shape of both
`re.findall(r'\b\w+\b', s)` and `str.split()`). -/
def runsOfAux (p : Char → Bool) (cur : List Char) : List Char → List (List Char)
  | [] => if cur.isEmpty then [] else [cur.reverse]
  | c :: t =>
    if p c then runsOfAux p (c :: cur) t
    else if cur.isEmpty then runsOfAux p [] t
    else cur.reverse :: runsOfAux p [] t

/-- Maximal runs, as strings. -/
def runsOf (p : Char → Bool) (l : List Char) : List String :=
  (runsOfAux p [] l).map String.mk

/-- `re.findall(r'\b\w+\b', s.lower())`. -/
def wordsOf (s : String) : List String :=
  runsOf isWordChar (pyLowerL s.data)

/-- `_check_semantic_inversion`: the original contains a negation (word-set
hit or an `n't` inside a whitespace-token) and the translation contains no
target-language negation. -/
def checkSemanticInversion (original translated : String) : Bool :=
  let origHasNeg :=
    (wordsOf original).any (fun w => englishNegations.contains w)
      || (runsOf (fun c => !pySpace c) (pyLowerL original.data)).any
          (fun w => infixOf "n't".data w.data)
  origHasNeg
    && !((wordsOf translated).any (fun w => portugueseNegations.contains w))

/-- `_check_pronoun_mismatch`. -/
def checkPronounMismatch (original translated : String) : Option LineIssue :=
  let ow := wordsOf original
  let tw := wordsOf translated
  let hasFem := tw.any (fun w => w = "ela" || w = "dela" || w = "elha")
  let femMismatch :=
    ow.any (fun w => w = "she" || w = "her" || w = "herself" || w = "hers")
      && (tw.any (fun w => w = "ele" || w = "dele") && !hasFem)
  let hasMasc := tw.any (fun w => w = "ele" || w = "dele")
  let mascMismatch :=
    ow.any (fun w => w = "he" || w = "him" || w = "himself" || w = "his")
      && (tw.any (fun w => w = "ela" || w = "dela") && !hasMasc)
  if femMismatch then some LineIssue.pronounFemToMasc
  else if mascMismatch then some LineIssue.pronounMascToFem
  else none

/-- `validate_line_translation`: `(is_valid, issues, confidence)` with
confidence 1.0 minus the penalties of the five checks, floored at 0;
invalid iff the final confidence is below 0.3. -/
def validateLineTranslation (original translated : String) :
    Bool × List LineIssue × ℚ :=
  if original = "" ∨ translated = "" then (false, [], 0)
  else if pyLower (pyStrip original) = pyLower (pyStrip translated) then
    (false, [], 0)
  else
    let inv := checkSemanticInversion original translated
    let pro := checkPronounMismatch original translated
    let ratio : ℚ :=
      ((pyStrip translated).length : ℚ) / max 1 ((pyStrip original).length : ℚ)
    let ratioIssue : List LineIssue :=
      if ratio < 2/10 then [LineIssue.tooShort]
      else if 4 < ratio then [LineIssue.tooLong] else []
    let art := artifactPrefixes.find?
      (fun a => a.data.isPrefixOf (pyLowerL (pyStripL translated.data)))
    let cjk := translated.data.any isCJK
    let issues :=
      (if inv then [LineIssue.semanticInversion] else [])
        ++ pro.toList ++ ratioIssue
        ++ (art.map (fun a => LineIssue.artifact a)).toList
        ++ (if cjk then [LineIssue.cjkChars] else [])
    let penalty : ℚ :=
      (if inv then 4/10 else 0) + (if pro.isSome then 5/10 else 0)
        + (if ratio < 2/10 then 3/10 else if 4 < ratio then 2/10 else 0)
        + (if art.isSome then 5/10 else 0) + (if cjk then 6/10 else 0)
    let confidence : ℚ := max 0 (1 - penalty)
    (!(confidence < 3/10), issues, confidence)

/-- Shared evaluation of the validator at the C8 input. -/
theorem validateLine_dont_know_aux :
    validateLineTranslation "I don't know." "Eu sei."
      = (true, [LineIssue.semanticInversion], 3/5) := by
  have hne : ¬ ("I don't know." = "" ∨ "Eu sei." = "") := by decide
  have hid : ¬ (pyLower (pyStrip "I don't know.") = pyLower (pyStrip "Eu sei.")) := by
    decide
  have hinv : checkSemanticInversion "I don't know." "Eu sei." = true := by decide
  have hpro : checkPronounMismatch "I don't know." "Eu sei." = none := by decide
  have hart : artifactPrefixes.find?
      (fun a => a.data.isPrefixOf (pyLowerL (pyStripL "Eu sei.".data))) = none := by
    decide
  have hcjk : "Eu sei.".data.any isCJK = false := by decide
  have hlt : (pyStrip "Eu sei.").length = 7 := by decide
  have hlo : (pyStrip "I don't know.").length = 13 := by decide
  rw [validateLineTranslation, if_neg hne, if_neg hid]
  simp only [hinv, hpro, hart, hcjk, hlt, hlo, Option.isSome_none, Option.toList_none,
    Option.map_none', if_true, if_false, Bool.false_eq_true, List.append_nil]
  norm_num

/-- C8 — counterexample.  For `"I don't know."` → `"Eu sei."` the validator
does detect the semantic inversion, but the only penalty is 0.4, so the
confidence is 0.6 — not below 0.3 — and the line is ACCEPTED, contrary to
the claim. -/
theorem validator_inversion_accepted_counterexample :
    checkSemanticInversion "I don't know." "Eu sei." = true ∧
    (validateLineTranslation "I don't know." "Eu sei.").2.2 = 3/5 ∧
    ¬ ((3/5 : ℚ) < 3/10) ∧
    (validateLineTranslation "I don't know." "Eu sei.").1 = true := by
  have h := validateLine_dont_know_aux
  exact ⟨by decide, by rw [h], by norm_num, by rw [h]⟩

/-- C8 (amended) — for `"I don't know."` → `"Eu sei."` the validator
detects the semantic inversion (negation in the original, none in the
translation), subtracts 0.4, and returns confidence 0.6 with the line
reported valid (the inversion recorded as an issue). -/
theorem validator_inversion_result :
    validateLineTranslation "I don't know." "Eu sei."
      = (true, [LineIssue.semanticInversion], 3/5) :=
  validateLine_dont_know_aux

/-! ## Numbered-batch response parser (`src/modules/translator.py`)

`_parse_numbered_batch_response` splits the backend response on newlines,
matches each stripped line against `^(\d+)[│.\):\s]+(.+)$` and, failing
that, `^(\d+)\s*[-–—]?\s+(.+)$`, collects the numbered translations in a
dict (later lines override), then applies the 60%-parsed and 30%-missing
thresholds.  `len < n*0.6` / `missing > n*0.3` are modelled as
`10*len < 6*n` / `10*missing > 3*n` (exact for the IEEE doubles of these
operand ranges). -/

/-- The separator class `[│.\):\s]` of the first line regex. -/
def isSepChar (c : Char) : Bool :=
  c = '│' || c = '.' || c = ')' || c = ':' || pySpace c

/-- The dash class `[-–—]` of the second line regex. -/
def isDashChar (c : Char) : Bool :=
  c = '-' || c = '–' || c = '—'

/-- Matching `C+(.+)$` against `t` with backtracking: a nonempty run of the
class, then a nonempty remainder (the run gives one character back when it
would swallow the whole string); returns the remainder. -/
def runThenRest (p : Char → Bool) (t : List Char) : Option (List Char) :=
  let k := (t.takeWhile p).length
  if 1 ≤ k ∧ 2 ≤ t.length then some (t.drop (min k (t.length - 1))) else none

/-- `int(...)` of a digit run. -/
def natOfDigits (ds : List Char) : Nat :=
  ds.foldl (fun n c => 10 * n + (c.toNat - 48)) 0

/-- Both numbered-line regexes applied to an already stripped line: returns
the line number and the raw captured text group. -/
def matchNumberedLine (l : List Char) : Option (Nat × List Char) :=
  let ds := l.takeWhile (fun c => '0' ≤ c && c ≤ '9')
  if ds.isEmpty then none
  else
    let t := l.drop ds.length
    match runThenRest isSepChar t with
    | some rest => some (natOfDigits ds, rest)
    | none =>
      -- second regex, reached only when the first failed: optional
      -- whitespace, optional single dash, mandatory whitespace, remainder
      let w := (t.takeWhile pySpace).length
      let r1 := t.drop w
      match r1 with
      | c :: u =>
        if isDashChar c then
          match runThenRest pySpace u with
          | some rest => some (natOfDigits ds, rest)
          | none => if 1 ≤ w then some (natOfDigits ds, r1) else none
        else if 1 ≤ w then some (natOfDigits ds, r1) else none
      | [] => if 2 ≤ w then some (natOfDigits ds, [t.getLastD ' ']) else none

/-- Strip one matching pair of identical outer quotes
(`translation[1:-1]`, which empties a lone quote character). -/
def stripMatchingQuote (q : Char) (l : List Char) : List Char :=
  match l.head?, l.getLast? with
  | some a, some b => if a = q && b = q then (l.drop 1).dropLast else l
  | _, _ => l

/-- One iteration of the parser's line loop: strip, skip empties, match the
numbered-line regexes, strip the captured group, strip quotes, and reject
translations that are empty or only dots/commas/whitespace. -/
def parseBatchLine (line : List Char) : Option (Nat × String) :=
  let l := pyStripL line
  if l.isEmpty then none
  else
    match matchNumberedLine l with
    | none => none
    | some (n, rest) =>
      let tr1 := pyStripL rest
      let tr2 := stripMatchingQuote '"' tr1
      let tr3 := stripMatchingQuote '\'' tr2
      if !tr3.isEmpty
          && !(pyStripL (tr3.filter (fun c => !(c = '.' || c = ',')))).isEmpty then
        some (n, String.mk tr3)
      else none

/-- Nat-keyed first-match lookup (Python dict). -/
def nlookup (k : Nat) : List (Nat × String) → Option String
  | [] => none
  | (k', v) :: t => if k' = k then some v else nlookup k t

/-- Nat-keyed insert-or-replace in place (Python dict update). -/
def nInsert (k : Nat) (v : String) : List (Nat × String) → List (Nat × String)
  | [] => [(k, v)]
  | (k', v') :: t => if k' = k then (k, v) :: t else (k', v') :: nInsert k v t

/-- `response_text.split('\n')` (keeps empty pieces). -/
def splitNlAux (cur : List Char) : List Char → List (List Char)
  | [] => [cur.reverse]
  | c :: t => if c = '\n' then cur.reverse :: splitNlAux [] t else splitNlAux (c :: cur) t

/-- The `translations` dict accumulated over all lines of the response. -/
def batchDict (resp : String) : List (Nat × String) :=
  (splitNlAux [] resp.data).foldl
    (fun d line =>
      match parseBatchLine line with
      | some p => nInsert p.1 p.2 d
      | none => d) []

/-- The ordered result list (slot `i` holds the dict entry for line
`i + 1`, `none` when missing). -/
def batchSlots (resp : String) (expected : Nat) : List (Option String) :=
  (List.range expected).map (fun i => nlookup (i + 1) (batchDict resp))

/-- `_parse_numbered_batch_response`. -/
def parseNumberedBatchResponse (resp : String) (expected : Nat) :
    Option (List (Option String)) :=
  if 10 * (batchDict resp).length < 6 * expected then none
  else if 3 * expected <
      10 * ((batchSlots resp expected).filter (fun o => o.isNone)).length then none
  else some (batchSlots resp expected)

theorem count_none_add_count_some (f : Nat → Option String) (l : List Nat) :
    ((l.map f).filter (fun o => o.isNone)).length
      + (l.filter (fun i => (f i).isSome)).length = l.length := by
  induction l with
  | nil => simp
  | cons a t ih =>
    cases h : f a <;> simp [h] <;> omega

theorem nlookup_isSome_mem (d : List (Nat × String)) (k : Nat)
    (h : (nlookup k d).isSome) : k ∈ d.map Prod.fst := by
  induction d with
  | nil => simp [nlookup] at h
  | cons p t ih =>
    rw [nlookup] at h
    by_cases hp : p.1 = k
    · simp [hp]
    · rw [if_neg hp] at h
      simp [ih h]

theorem inRange_le_dict (d : List (Nat × String)) (N : Nat) :
    ((List.range N).filter (fun i => (nlookup (i + 1) d).isSome)).length ≤ d.length := by
  have hnd : (((List.range N).filter (fun i => (nlookup (i + 1) d).isSome)).map
      (fun i => i + 1)).Nodup := by
    refine List.Nodup.map (fun a b hab => by omega) ?_
    exact (List.nodup_range N).filter _
  have hsub : (((List.range N).filter (fun i => (nlookup (i + 1) d).isSome)).map
      (fun i => i + 1)) ⊆ d.map Prod.fst := by
    intro x hx
    simp only [List.mem_map, List.mem_filter] at hx
    obtain ⟨i, ⟨_, hi⟩, rfl⟩ := hx
    exact nlookup_isSome_mem d (i + 1) hi
  have := (List.subperm_of_subset hnd hsub).length_le
  simpa using this

/-- C6 — counterexample.  For the accepted format `'N - text'` the first
regex consumes only the whitespace as separator, so the dash stays in the
stored translation: slot 1 holds `"- hello"`, not `"hello"` as the claim's
reading of the format implies. -/
theorem parseBatch_dash_format_counterexample :
    parseNumberedBatchResponse "1 - hello" 1 = some [some "- hello"] ∧
    parseNumberedBatchResponse "1 - hello" 1 ≠ some [some "hello"] := by
  refine ⟨by decide, by decide⟩

/-- C6 (amended) — with `p` the number of in-range numbered lines parsed:
the parser returns `none` iff fewer than 60% of the `N` slots are parsed or
more than 30% are missing (out-of-range numbers in the response cannot
change the outcome), and otherwise returns exactly the `N` slots with the
parsed translation in present slots and `none` in missing ones; the formats
`'N│ text'`, `'N. text'`, `'N) text'`, `'N: text'` yield `text`, while
`'N - text'` keeps the dash (`- text`). -/
theorem parseNumberedBatch_characterization (resp : String) (expected : Nat) :
    (10 * ((List.range expected).filter
          (fun i => (nlookup (i + 1) (batchDict resp)).isSome)).length < 6 * expected
        ∨ 3 * expected < 10 * (expected - ((List.range expected).filter
          (fun i => (nlookup (i + 1) (batchDict resp)).isSome)).length) →
      parseNumberedBatchResponse resp expected = none) ∧
    (6 * expected ≤ 10 * ((List.range expected).filter
          (fun i => (nlookup (i + 1) (batchDict resp)).isSome)).length
        ∧ 10 * (expected - ((List.range expected).filter
          (fun i => (nlookup (i + 1) (batchDict resp)).isSome)).length) ≤ 3 * expected →
      parseNumberedBatchResponse resp expected = some (batchSlots resp expected)) ∧
    parseBatchLine "7│ text".data = some (7, "text") ∧
    parseBatchLine "7. text".data = some (7, "text") ∧
    parseBatchLine "7) text".data = some (7, "text") ∧
    parseBatchLine "7: text".data = some (7, "text") ∧
    parseBatchLine "7 - text".data = some (7, "- text") := by
  set d := batchDict resp with hd
  set p := ((List.range expected).filter (fun i => (nlookup (i + 1) d).isSome)).length
    with hp
  have hpN : p ≤ expected := by
    rw [hp]
    calc ((List.range expected).filter (fun i => (nlookup (i + 1) d).isSome)).length
        ≤ (List.range expected).length := List.length_filter_le _ _
      _ = expected := List.length_range expected
  have hlen : p ≤ d.length := inRange_le_dict d expected
  have hmiss : ((batchSlots resp expected).filter (fun o => o.isNone)).length
      = expected - p := by
    have h1 := count_none_add_count_some (fun i => nlookup (i + 1) d) (List.range expected)
    rw [List.length_range] at h1
    have h2 : ((batchSlots resp expected).filter (fun o => o.isNone)).length
        = (((List.range expected).map (fun i => nlookup (i + 1) d)).filter
            (fun o => o.isNone)).length := by
      rw [batchSlots, hd]
    omega
  refine ⟨?_, ?_, by decide, by decide, by decide, by decide, by decide⟩
  · intro h
    rw [parseNumberedBatchResponse]
    by_cases h1 : 10 * (batchDict resp).length < 6 * expected
    · rw [if_pos h1]
    · rw [if_neg h1]
      rw [← hd] at h1
      have h2 : 3 * expected < 10 * ((batchSlots resp expected).filter
          (fun o => o.isNone)).length := by
        rw [hmiss]
        omega
      rw [if_pos h2]
  · intro h
    rw [parseNumberedBatchResponse]
    have h1 : ¬ (10 * (batchDict resp).length < 6 * expected) := by
      rw [← hd]
      omega
    have h2 : ¬ (3 * expected < 10 * ((batchSlots resp expected).filter
        (fun o => o.isNone)).length) := by
      rw [hmiss]
      omega
    rw [if_neg h1, if_neg h2]

/-- C6 witness: a fully parsed two-line response returns both slots. -/
theorem parseNumberedBatch_characterization_witness :
    parseNumberedBatchResponse "1│ Olá\n2│ Tudo bem" 2
      = some (batchSlots "1│ Olá\n2│ Tudo bem" 2) :=
  (parseNumberedBatch_characterization "1│ Olá\n2│ Tudo bem" 2).2.1 (by decide)

/-! ## Glossary auto-merge (`src/modules/glossary_manager.py`)

`merge_suggested_terms` mutates the in-memory v2 document of a series
(creating a fresh one when absent) and bumps `episodes_scanned` — but only
when the candidate dict is nonempty (`if not suggested: return`).  The
`updated_at` stamp, the budgeted-cache refresh and the disk save carry no
claim-relevant state and are not modelled; `datetime.utcnow()` is the
opaque `now` argument. -/

/-- A value of the v2 `terms` map: a full record, or a leftover plain
string (skipped by the merge's `isinstance(existing, dict)` test). -/
inductive TermVal where
  | entry (value source : String) (count : Nat) (pinned : Bool) (lastSeen : String)
  | legacy (value : String)
deriving Repr, DecidableEq

/-- The claim-relevant state of a series' v2 document. -/
structure SeriesDoc where
  terms : List (String × TermVal)
  episodesScanned : Nat
deriving Repr, DecidableEq

/-- `_STOPWORDS_GLOSSARY`. -/
def stopwordsGlossary : List String :=
  ["the", "and", "for", "you", "are", "not", "but", "his", "her", "has", "had",
   "was", "all", "can", "out", "did", "get", "him", "say", "she", "they", "this",
   "with", "that", "from", "have", "will", "one", "yes", "no", "ok", "oh", "ah"]

/-- `GlossaryManager._is_safe_suggested_term`: trimmed-lowercased key of
length ≥ 3, not a stopword; target of at most 80 characters containing at
most 10 space characters (`translation.count(' ') > 10` rejects). -/
def isSafeSuggestedTerm (term translation : String) : Bool :=
  let tc := pyLower (pyStrip term)
  decide (3 ≤ tc.length) && !(stopwordsGlossary.contains tc)
    && decide (translation.length ≤ 80) && decide (translation.data.count ' ' ≤ 10)

/-- One candidate of the merge loop: skip unsafe candidates; insert new keys
as `auto_track` records with `count = min_occurrences`; update existing
`auto_track` records (keep source and pinned, take `max(count,
min_occurrences)`, refresh value and `last_seen`); leave every other
existing value untouched. -/
def mergeStep (minOcc : Nat) (now : String) (terms : List (String × TermVal))
    (term translation : String) : List (String × TermVal) :=
  if !(isSafeSuggestedTerm term translation) then terms
  else
    let k := pyLower (pyStrip term)
    match alookup k terms with
    | none =>
      aInsert k (TermVal.entry (pyStrip translation) "auto_track" minOcc false now) terms
    | some (TermVal.entry _ src cnt pin _) =>
      if src = "auto_track" then
        aInsert k (TermVal.entry (pyStrip translation) src (max cnt minOcc) pin now) terms
      else terms
    | some (TermVal.legacy _) => terms

/-- The fresh v2 document created when a series has none
(`terms = {}`, `episodes_scanned = 0`). -/
def freshDoc : SeriesDoc := ⟨[], 0⟩

/-- `GlossaryManager.merge_suggested_terms` on the claim-relevant state. -/
def mergeSuggestedTerms (doc : Option SeriesDoc) (suggested : List (String × String))
    (minOcc : Nat) (now : String) : Option SeriesDoc :=
  if suggested.isEmpty then doc
  else
    let d0 := doc.getD freshDoc
    some ⟨suggested.foldl (fun ts kv => mergeStep minOcc now ts kv.1 kv.2) d0.terms,
      d0.episodesScanned + 1⟩

/-- The effect of the merge at a candidate's own (normalized) key, as a
function of the previous value there. -/
def mergeEffect (minOcc : Nat) (now : String) (translation : String) :
    Option TermVal → Option TermVal
  | none => some (TermVal.entry (pyStrip translation) "auto_track" minOcc false now)
  | some (TermVal.entry v src cnt pin ls) =>
    if src = "auto_track" then
      some (TermVal.entry (pyStrip translation) src (max cnt minOcc) pin now)
    else some (TermVal.entry v src cnt pin ls)
  | some (TermVal.legacy v) => some (TermVal.legacy v)

theorem mergeStep_other (m : Nat) (now : String) (ts : List (String × TermVal))
    (term tr k : String) (h : pyLower (pyStrip term) ≠ k) :
    alookup k (mergeStep m now ts term tr) = alookup k ts := by
  rw [mergeStep]
  by_cases hs : isSafeSuggestedTerm term tr
  · rw [if_neg (by simp [hs])]
    rcases hl : alookup (pyLower (pyStrip term)) ts with _ | v
    · simp only [hl]
      exact alookup_aInsert_ne _ _ _ _ (Ne.symm h)
    · rcases v with ⟨v, src, cnt, pin, ls⟩ | v
      · simp only [hl]
        by_cases hsrc : src = "auto_track"
        · rw [if_pos hsrc]
          exact alookup_aInsert_ne _ _ _ _ (Ne.symm h)
        · rw [if_neg hsrc]
      · simp only [hl]
  · rw [if_pos (by simp [hs])]

theorem mergeStep_self (m : Nat) (now : String) (ts : List (String × TermVal))
    (term tr : String) :
    alookup (pyLower (pyStrip term)) (mergeStep m now ts term tr)
      = if isSafeSuggestedTerm term tr then
          mergeEffect m now tr (alookup (pyLower (pyStrip term)) ts)
        else alookup (pyLower (pyStrip term)) ts := by
  rw [mergeStep]
  by_cases hs : isSafeSuggestedTerm term tr
  · rw [if_neg (by simp [hs]), if_pos hs]
    rcases hl : alookup (pyLower (pyStrip term)) ts with _ | v
    · simp only [hl, mergeEffect]
      exact alookup_aInsert_self _ _ _
    · rcases v with ⟨v, src, cnt, pin, ls⟩ | v
      · simp only [hl, mergeEffect]
        by_cases hsrc : src = "auto_track"
        · rw [if_pos hsrc, if_pos hsrc]
          exact alookup_aInsert_self _ _ _
        · rw [if_neg hsrc, if_neg hsrc]
          exact hl
      · simp only [hl, mergeEffect]
  · rw [if_pos (by simp [hs]), if_neg hs]

theorem foldl_merge_untouched (m : Nat) (now : String) (l : List (String × String))
    (ts : List (String × TermVal)) (k : String)
    (h : ∀ kv ∈ l, pyLower (pyStrip kv.1) ≠ k) :
    alookup k (l.foldl (fun a kv => mergeStep m now a kv.1 kv.2) ts) = alookup k ts := by
  induction l generalizing ts with
  | nil => rfl
  | cons x rest ih =>
    rw [List.foldl_cons]
    rw [ih _ (fun kv hkv => h kv (List.mem_cons_of_mem x hkv))]
    exact mergeStep_other m now ts x.1 x.2 k (h x (List.mem_cons_self x rest))

theorem foldl_merge_candidate (m : Nat) (now : String) (l : List (String × String))
    (ts : List (String × TermVal)) (term tr : String)
    (hmem : (term, tr) ∈ l)
    (hnd : (l.map (fun kv => pyLower (pyStrip kv.1))).Nodup) :
    alookup (pyLower (pyStrip term)) (l.foldl (fun a kv => mergeStep m now a kv.1 kv.2) ts)
      = if isSafeSuggestedTerm term tr then
          mergeEffect m now tr (alookup (pyLower (pyStrip term)) ts)
        else alookup (pyLower (pyStrip term)) ts := by
  induction l generalizing ts with
  | nil => exact absurd hmem (List.not_mem_nil _)
  | cons x rest ih =>
    rw [List.map_cons, List.nodup_cons] at hnd
    rcases List.mem_cons.mp hmem with heq | hmem'
    · subst heq
      rw [List.foldl_cons]
      have hrest : ∀ kv ∈ rest, pyLower (pyStrip kv.1) ≠ pyLower (pyStrip term) := by
        intro kv hkv he
        exact hnd.1 (by
          rw [← he]
          exact List.mem_map_of_mem _ hkv)
      rw [foldl_merge_untouched m now rest _ _ hrest]
      exact mergeStep_self m now ts term tr
    · have hk : pyLower (pyStrip x.1) ≠ pyLower (pyStrip term) := by
        intro he
        exact hnd.1 (by
          rw [he]
          exact List.mem_map_of_mem _ hmem')
      rw [List.foldl_cons, ih _ hmem' hnd.2,
        mergeStep_other m now ts x.1 x.2 _ hk]

/-- C9 — counterexample.  The claim requires rejecting targets with more
than 10 words, but the code counts *space characters*
(`translation.count(' ') > 10`): an 11-word target with 10 single spaces is
accepted and stored as a fresh `auto_track` entry. -/
theorem merge_accepts_eleven_word_target :
    (runsOf (fun c => !pySpace c) "a a a a a a a a a a a".data).length = 11 ∧
    isSafeSuggestedTerm "dragon" "a a a a a a a a a a a" = true ∧
    mergeSuggestedTerms none [("dragon", "a a a a a a a a a a a")] 3 "t0"
      = some ⟨[("dragon",
          TermVal.entry "a a a a a a a a a a a" "auto_track" 3 false "t0")], 1⟩ := by
  refine ⟨by decide, by decide, by decide⟩

/-- C9 (amended) — a candidate is accepted iff its trimmed-lowercased key
has length ≥ 3 and is not a stopword, and the target has at most 80
characters and at most 10 *space characters* (not words); for every merge
call with a NONEMPTY candidate map (candidates with pairwise distinct
normalized keys): `episodes_scanned` increases by exactly 1, each accepted
new key gets an `auto_track` entry with `count = min_occurrences`, each
accepted existing `auto_track` entry gets `count = max(existing count,
min_occurrences)` (other existing entries and rejected candidates leave
their key untouched). -/
theorem mergeSuggestedTerms_spec (doc : Option SeriesDoc)
    (suggested : List (String × String)) (minOcc : Nat) (now : String)
    (hne : suggested ≠ [])
    (hnd : (suggested.map (fun kv => pyLower (pyStrip kv.1))).Nodup) :
    (∀ term tr, isSafeSuggestedTerm term tr = true ↔
      (3 ≤ (pyLower (pyStrip term)).length ∧ pyLower (pyStrip term) ∉ stopwordsGlossary
        ∧ tr.length ≤ 80 ∧ tr.data.count ' ' ≤ 10)) ∧
    ∀ d', mergeSuggestedTerms doc suggested minOcc now = some d' →
      d'.episodesScanned = (doc.getD freshDoc).episodesScanned + 1 ∧
      ∀ term tr, (term, tr) ∈ suggested →
        alookup (pyLower (pyStrip term)) d'.terms
          = if isSafeSuggestedTerm term tr then
              mergeEffect minOcc now tr
                (alookup (pyLower (pyStrip term)) (doc.getD freshDoc).terms)
            else alookup (pyLower (pyStrip term)) (doc.getD freshDoc).terms := by
  constructor
  · intro term tr
    simp [isSafeSuggestedTerm, and_assoc]
  · intro d' hd'
    rw [mergeSuggestedTerms, if_neg (by simpa using hne)] at hd'
    have hd2 := Option.some.inj hd'
    subst hd2
    refine ⟨rfl, ?_⟩
    intro term tr hmem
    exact foldl_merge_candidate minOcc now suggested _ term tr hmem hnd

/-- C9 witness: merging one fresh candidate into an absent document. -/
theorem mergeSuggestedTerms_spec_witness :
    (∀ term tr, isSafeSuggestedTerm term tr = true ↔
      (3 ≤ (pyLower (pyStrip term)).length ∧ pyLower (pyStrip term) ∉ stopwordsGlossary
        ∧ tr.length ≤ 80 ∧ tr.data.count ' ' ≤ 10)) ∧
    ∀ d', mergeSuggestedTerms none [("Akane", "Akane")] 3 "t0" = some d' →
      d'.episodesScanned = ((none : Option SeriesDoc).getD freshDoc).episodesScanned + 1 ∧
      ∀ term tr, (term, tr) ∈ [("Akane", "Akane")] →
        alookup (pyLower (pyStrip term)) d'.terms
          = if isSafeSuggestedTerm term tr then
              mergeEffect 3 "t0" tr
                (alookup (pyLower (pyStrip term))
                  ((none : Option SeriesDoc).getD freshDoc).terms)
            else alookup (pyLower (pyStrip term))
              ((none : Option SeriesDoc).getD freshDoc).terms :=
  mergeSuggestedTerms_spec none [("Akane", "Akane")] 3 "t0" (by decide) (by decide)
